import Mathlib

/-!
# Shallow embedding of the StratagemForge rust_processor pipeline

This file embeds `src/rust_processor/src/lib.rs`: the record normalizer
`TickData::from_py_dict` and the bulk loader `insert_ticks_bulk`, which
converts a list of loosely typed per-tick records into typed rows and inserts
them into a `demo_ticks` table inside a single transaction.

Python values crossing the pyo3 boundary are modelled by a tagged union
`PyValue`; the storage layer (DuckDB connection, prepared statement,
transaction) is modelled by an oracle `Env` deciding which operations succeed,
together with an event trace recording every storage operation the call
attempts, in order.  Rows are durable only if the transaction committed, i.e.
only on the success path of the call.
-/

namespace StratagemForge

/-- A dynamically typed Python value as seen through the pyo3 boundary. -/
inductive PyValue where
  | int (n : Int)
  | float (q : Rat)
  | str (s : String)
  | bool (b : Bool)
  | pynone
  | other
deriving DecidableEq

/-- A Python dict with string keys, as an association list (first binding wins,
matching `PyDict::get_item`). -/
abbrev PyDict := List (String × PyValue)

/-- One element of the `ticks_data` list: a dict, or some non-dict object on
which `item.downcast::<PyDict>()` fails. -/
inductive PyObject where
  | dict (d : PyDict)
  | nonDict
deriving DecidableEq

/-- `dict.get_item(key)`: the first binding for `key`, if any. -/
def lookupKey (key : String) : PyDict → Option PyValue
  | [] => none
  | (k, v) :: rest => if k = key then some v else lookupKey key rest

/-- `extract::<i32>()`: Python ints in the `i32` range (and bools, which are
ints in Python); everything else raises. -/
def exI32 : PyValue → Option Int
  | .int n => if -(2 ^ 31) ≤ n ∧ n < 2 ^ 31 then some n else none
  | .bool b => some (if b then 1 else 0)
  | _ => none

/-- `extract::<i64>()`: Python ints in the `i64` range (and bools). -/
def exI64 : PyValue → Option Int
  | .int n => if -(2 ^ 63) ≤ n ∧ n < 2 ^ 63 then some n else none
  | .bool b => some (if b then 1 else 0)
  | _ => none

/-- `extract::<f64>()`: floats, plus ints and bools via `__float__`. -/
def exF64 : PyValue → Option Rat
  | .float q => some q
  | .int n => some (n : Rat)
  | .bool b => some (if b then 1 else 0)
  | _ => none

/-- `extract::<String>()`: only `str` objects. -/
def exStr : PyValue → Option String
  | .str s => some s
  | _ => none

/-- `extract::<bool>()`: only `bool` objects. -/
def exBool : PyValue → Option Bool
  | .bool b => some b
  | _ => none

/-- One field extraction
`dict.get_item(key)?.unwrap_or_default().extract().unwrap_or(dflt)`:
absent key, or present value on which the extraction raises, yields the
default. -/
def getField {α : Type} (d : PyDict) (key : String) (ex : PyValue → Option α)
    (dflt : α) : α :=
  match lookupKey key d with
  | none => dflt
  | some v => (ex v).getD dflt

/-- The `TickData` struct: one fully populated normalized row.  Rust `f64`
fields carry the exact values bound by this pipeline (no arithmetic is ever
performed on them), modelled as rationals. -/
structure TickData where
  tick : Int
  round_num : Int
  seconds : Rat
  clock_time : String
  t_score : Int
  ct_score : Int
  steam_id : Int
  name : String
  team : String
  side : String
  is_alive : Bool
  hp : Int
  armor : Int
  x : Rat
  y : Rat
  z : Rat
  view_x : Rat
  view_y : Rat
  active_weapon : String
  demo_filename : String
  map_name : String
deriving DecidableEq

/-- `TickData::from_py_dict`: per-field extraction with silent defaulting;
`demo_filename` and `map_name` are injected from the call parameters. -/
def from_py_dict (d : PyDict) (demo_filename map_name : String) : TickData where
  tick := getField d "tick" exI32 0
  round_num := getField d "roundNum" exI32 0
  seconds := getField d "seconds" exF64 0
  clock_time := getField d "clockTime" exStr ""
  t_score := getField d "tScore" exI32 0
  ct_score := getField d "ctScore" exI32 0
  steam_id := getField d "steamID" exI64 0
  name := getField d "name" exStr ""
  team := getField d "team" exStr ""
  side := getField d "side" exStr ""
  is_alive := getField d "isAlive" exBool true
  hp := getField d "hp" exI32 100
  armor := getField d "armor" exI32 0
  x := getField d "x" exF64 0
  y := getField d "y" exF64 0
  z := getField d "z" exF64 0
  view_x := getField d "viewX" exF64 0
  view_y := getField d "viewY" exF64 0
  active_weapon := getField d "activeWeapon" exStr ""
  demo_filename := demo_filename
  map_name := map_name

/-- The row all of whose extracted fields took their documented default. -/
def defaultRow (demo_filename map_name : String) : TickData where
  tick := 0
  round_num := 0
  seconds := 0
  clock_time := ""
  t_score := 0
  ct_score := 0
  steam_id := 0
  name := ""
  team := ""
  side := ""
  is_alive := true
  hp := 100
  armor := 0
  x := 0
  y := 0
  z := 0
  view_x := 0
  view_y := 0
  active_weapon := ""
  demo_filename := demo_filename
  map_name := map_name

/-- The source keys `from_py_dict` looks up, in field order. -/
def sourceKeys : List String :=
  ["tick", "roundNum", "seconds", "clockTime", "tScore", "ctScore", "steamID",
   "name", "team", "side", "isAlive", "hp", "armor", "x", "y", "z", "viewX",
   "viewY", "activeWeapon"]

/-- A value bound to one `?` placeholder of the prepared statement. -/
inductive SqlValue where
  | int (n : Int)
  | bigint (n : Int)
  | float (q : Rat)
  | text (s : String)
  | boolean (b : Bool)
deriving DecidableEq

/-- The `params![...]` list passed to `stmt.execute` for one row, in source
order. -/
def bindRow (t : TickData) : List SqlValue :=
  [.int t.tick, .int t.round_num, .float t.seconds, .text t.clock_time,
   .int t.t_score, .int t.ct_score, .bigint t.steam_id, .text t.name,
   .text t.team, .text t.side, .boolean t.is_alive, .int t.hp, .int t.armor,
   .float t.x, .float t.y, .float t.z, .float t.view_x, .float t.view_y,
   .text t.active_weapon, .text t.demo_filename, .text t.map_name]

/-- The column list of the prepared `INSERT INTO demo_ticks (...)` statement,
in its declared order. -/
def insertColumns : List String :=
  ["tick", "round_num", "seconds", "clock_time", "t_score", "ct_score",
   "steam_id", "name", "team", "side", "is_alive", "hp", "armor",
   "x", "y", "z", "view_x", "view_y", "active_weapon", "demo_filename",
   "map_name"]

/-- Spec-side table: the row field that belongs to each destination column. -/
def columnValue (t : TickData) : String → Option SqlValue
  | "tick" => some (.int t.tick)
  | "round_num" => some (.int t.round_num)
  | "seconds" => some (.float t.seconds)
  | "clock_time" => some (.text t.clock_time)
  | "t_score" => some (.int t.t_score)
  | "ct_score" => some (.int t.ct_score)
  | "steam_id" => some (.bigint t.steam_id)
  | "name" => some (.text t.name)
  | "team" => some (.text t.team)
  | "side" => some (.text t.side)
  | "is_alive" => some (.boolean t.is_alive)
  | "hp" => some (.int t.hp)
  | "armor" => some (.int t.armor)
  | "x" => some (.float t.x)
  | "y" => some (.float t.y)
  | "z" => some (.float t.z)
  | "view_x" => some (.float t.view_x)
  | "view_y" => some (.float t.view_y)
  | "active_weapon" => some (.text t.active_weapon)
  | "demo_filename" => some (.text t.demo_filename)
  | "map_name" => some (.text t.map_name)
  | _ => none

/-- The failure values `insert_ticks_bulk` can surface (each wraps an
underlying cause string in the source). -/
inductive PyErr where
  | downcastError
  | connectError
  | prepareError
  | beginError
  | insertError
  | commitError
deriving DecidableEq

/-- A storage operation attempted by the call, recorded in order. -/
inductive Event where
  | connect
  | prepareStmt
  | beginTx
  | insertRow (ps : List SqlValue)
  | commit
deriving DecidableEq

/-- Oracle for the storage layer: which operations succeed.  `insertOk` is
consulted with the running counter value (the global row index) and the bound
parameters of the row. -/
structure Env where
  connectOk : Bool
  prepareOk : Bool
  beginOk : Bool
  insertOk : Nat → List SqlValue → Bool
  commitOk : Bool

/-- The environment in which every storage operation succeeds. -/
def envOK : Env where
  connectOk := true
  prepareOk := true
  beginOk := true
  insertOk := fun _ _ => true
  commitOk := true

/-- The conversion pass `ticks_data.iter().map(...).collect::<Result<Vec<_>,_>>()`:
stops at the first record that is not a dict. -/
def convertAll (demo_filename map_name : String) :
    List PyObject → Except PyErr (List TickData)
  | [] => .ok []
  | .nonDict :: _ => .error .downcastError
  | .dict d :: rest =>
    match convertAll demo_filename map_name rest with
    | .error e => .error e
    | .ok ts => .ok (from_py_dict d demo_filename map_name :: ts)

/-- The inner per-row loop: attempt each insert in order, advancing the
counter after each success; stop at the first failure. -/
def insertRows (env : Env) : List TickData → Nat → List Event × Except PyErr Nat
  | [], n => ([], .ok n)
  | t :: ts, n =>
    if env.insertOk n (bindRow t) then
      let r := insertRows env ts (n + 1)
      (.insertRow (bindRow t) :: r.1, r.2)
    else
      ([.insertRow (bindRow t)], .error .insertError)

/-- The outer chunk loop `for chunk in tick_records.chunks(BATCH_SIZE)`. -/
def insertChunked (env : Env) :
    List (List TickData) → Nat → List Event × Except PyErr Nat
  | [], n => ([], .ok n)
  | c :: cs, n =>
    let r := insertRows env c n
    match r.2 with
    | .error e => (r.1, .error e)
    | .ok m =>
      let s := insertChunked env cs m
      (r.1 ++ s.1, s.2)

/-- Fuelled splitting of a list into consecutive chunks of size `c`. -/
def chunksGo {α : Type} (c : Nat) : Nat → List α → List (List α)
  | _, [] => []
  | 0, l => [l]
  | fuel + 1, l => l.take c :: chunksGo c fuel (l.drop c)

/-- `slice::chunks(c)`: consecutive chunks of size `c`, the last possibly
short; the empty list yields no chunks. -/
def chunks {α : Type} (c : Nat) (l : List α) : List (List α) :=
  chunksGo c l.length l

/-- The final `inserted as i32`: `inserted` counts row insertions with
32-bit wraparound, so the returned value is the count reduced modulo `2^32`
and read as a signed 32-bit integer. -/
def toI32 (n : Nat) : Int :=
  if n % 2 ^ 32 < 2 ^ 31 then (n % 2 ^ 32 : Nat) else (n % 2 ^ 32 : Nat) - 2 ^ 32

/-- `insert_ticks_bulk` with the chunk size as a parameter (the source fixes
`BATCH_SIZE = 10000`): convert every record, then connect, prepare, begin,
insert every row chunk by chunk, and commit; any failure stops the call with
its error.  Returns the result together with the trace of storage operations
attempted. -/
def insertTicksBulkWith (c : Nat) (env : Env) (db_path : String)
    (ticks_data : List PyObject) (demo_filename map_name : String) :
    Except PyErr Int × List Event :=
  match convertAll demo_filename map_name ticks_data with
  | .error e => (.error e, [])
  | .ok recs =>
    if env.connectOk then
      if env.prepareOk then
        if env.beginOk then
          let r := insertChunked env (chunks c recs) 0
          match r.2 with
          | .error e => (.error e, [.connect, .prepareStmt, .beginTx] ++ r.1)
          | .ok inserted =>
            if env.commitOk then
              (.ok (toI32 inserted),
               [.connect, .prepareStmt, .beginTx] ++ r.1 ++ [.commit])
            else
              (.error .commitError,
               [.connect, .prepareStmt, .beginTx] ++ r.1 ++ [.commit])
        else (.error .beginError, [.connect, .prepareStmt, .beginTx])
      else (.error .prepareError, [.connect, .prepareStmt])
    else (.error .connectError, [.connect])

/-- The entry point `insert_ticks_bulk`, with the source's `BATCH_SIZE`. -/
def insert_ticks_bulk (env : Env) (db_path : String) (ticks_data : List PyObject)
    (demo_filename map_name : String) : Except PyErr Int × List Event :=
  insertTicksBulkWith 10000 env db_path ticks_data demo_filename map_name

/-- The parameter lists of the insert attempts recorded in a trace. -/
def insertedParams (tr : List Event) : List (List SqlValue) :=
  tr.filterMap fun e =>
    match e with
    | .insertRow ps => some ps
    | _ => none

/-- The rows durably committed by a call: all inserted rows when the
transaction committed (the call returned a count), none otherwise. -/
def committedParams (out : Except PyErr Int × List Event) : List (List SqlValue) :=
  match out.1 with
  | .ok _ => insertedParams out.2
  | .error _ => []

/-- The field with source key `key` is absent from the record, or present
with a value its extraction rejects. -/
def absentOrBad {α : Type} (d : PyDict) (key : String)
    (ex : PyValue → Option α) : Prop :=
  lookupKey key d = none ∨ ∃ v, lookupKey key d = some v ∧ ex v = none

/-- An environment whose storage accepts everything except row inserts
(e.g. every insert hits a constraint violation). -/
def envInsFail : Env where
  connectOk := true
  prepareOk := true
  beginOk := true
  insertOk := fun _ _ => false
  commitOk := true

/-- The chunk-free reference run: identical to `insertTicksBulkWith` except
that the rows are processed in one sweep rather than chunk by chunk. -/
def flatRun (env : Env) (db_path : String) (ticks_data : List PyObject)
    (demo_filename map_name : String) : Except PyErr Int × List Event :=
  match convertAll demo_filename map_name ticks_data with
  | .error e => (.error e, [])
  | .ok recs =>
    if env.connectOk then
      if env.prepareOk then
        if env.beginOk then
          let r := insertRows env recs 0
          match r.2 with
          | .error e => (.error e, [.connect, .prepareStmt, .beginTx] ++ r.1)
          | .ok inserted =>
            if env.commitOk then
              (.ok (toI32 inserted),
               [.connect, .prepareStmt, .beginTx] ++ r.1 ++ [.commit])
            else
              (.error .commitError,
               [.connect, .prepareStmt, .beginTx] ++ r.1 ++ [.commit])
        else (.error .beginError, [.connect, .prepareStmt, .beginTx])
      else (.error .prepareError, [.connect, .prepareStmt])
    else (.error .connectError, [.connect])

/-! ## Helper lemmas -/

lemma getField_default {α : Type} (d : PyDict) (key : String)
    (ex : PyValue → Option α) (dflt : α)
    (h : lookupKey key d = none ∨ ∃ v, lookupKey key d = some v ∧ ex v = none) :
    getField d key ex dflt = dflt := by
  rcases h with h | ⟨v, hv, hex⟩
  · simp [getField, h]
  · simp [getField, hv, hex]

lemma getField_ext {α : Type} (d₁ d₂ : PyDict) (key : String)
    (ex : PyValue → Option α) (dflt : α)
    (h : lookupKey key d₁ = lookupKey key d₂) :
    getField d₁ key ex dflt = getField d₂ key ex dflt := by
  simp [getField, h]

/-- `from_py_dict` reads the record only through lookups of `sourceKeys`. -/
lemma from_py_dict_ext (d₁ d₂ : PyDict) (f m : String)
    (h : ∀ k ∈ sourceKeys, lookupKey k d₁ = lookupKey k d₂) :
    from_py_dict d₁ f m = from_py_dict d₂ f m := by
  unfold from_py_dict
  congr 1 <;>
    exact getField_ext _ _ _ _ _ (h _ (by simp [sourceKeys]))

lemma lookupKey_filter (d : PyDict) (key : String) (hk : key ∈ sourceKeys) :
    lookupKey key (d.filter fun p => decide (p.1 ∈ sourceKeys)) =
      lookupKey key d := by
  induction d with
  | nil => rfl
  | cons p rest ih =>
    obtain ⟨k, v⟩ := p
    by_cases hkey : k = key
    · subst hkey
      simp [List.filter_cons, hk, lookupKey, ih]
    · by_cases hmem : k ∈ sourceKeys
      · simp [List.filter_cons, hmem, lookupKey, hkey, ih]
      · simp [List.filter_cons, hmem, lookupKey, hkey, ih]

lemma convertAll_ok_of_no_nonDict (f m : String) (l : List PyObject)
    (h : PyObject.nonDict ∉ l) :
    ∃ recs, convertAll f m l = .ok recs ∧ recs.length = l.length := by
  induction l with
  | nil => exact ⟨[], rfl, rfl⟩
  | cons r rest ih =>
    obtain ⟨recs, hconv, hlen⟩ := ih (fun hmem => h (List.mem_cons_of_mem _ hmem))
    cases r with
    | nonDict => exact absurd (List.mem_cons_self _ _) h
    | dict d =>
      exact ⟨from_py_dict d f m :: recs, by simp [convertAll, hconv],
        by simp [hlen]⟩

lemma convertAll_err_of_nonDict (f m : String) (l : List PyObject)
    (h : PyObject.nonDict ∈ l) :
    convertAll f m l = .error .downcastError := by
  induction l with
  | nil => cases h
  | cons r rest ih =>
    cases r with
    | nonDict => rfl
    | dict d =>
      have hmem : PyObject.nonDict ∈ rest := by
        rcases List.mem_cons.mp h with h' | h'
        · cases h'
        · exact h'
      simp [convertAll, ih hmem]

lemma convertAll_replicate_dict (f m : String) (d : PyDict) (n : Nat) :
    convertAll f m (List.replicate n (.dict d)) =
      .ok (List.replicate n (from_py_dict d f m)) := by
  induction n with
  | zero => rfl
  | succ k ih => simp [List.replicate_succ, convertAll, ih]

/-- Inversion: a successful inner loop attempted exactly the given rows in
order and advanced the counter by their number. -/
lemma insertRows_ok_inv (env : Env) (rows : List TickData) (n : Nat)
    (evs : List Event) (m : Nat)
    (h : insertRows env rows n = (evs, .ok m)) :
    evs = rows.map (fun t => Event.insertRow (bindRow t)) ∧
      m = n + rows.length := by
  induction rows generalizing n evs with
  | nil =>
    rw [insertRows] at h
    injection h with h1 h2
    injection h2 with h2
    simp [← h1, ← h2]
  | cons t ts ih =>
    rw [insertRows] at h
    cases hok : env.insertOk n (bindRow t) with
    | false =>
      rw [hok] at h
      simp only [Bool.false_eq_true, if_false] at h
      injection h with h1 h2
      exact absurd h2 (by simp)
    | true =>
      rw [hok] at h
      simp only [if_true] at h
      injection h with h1 h2
      have hsplit : insertRows env ts (n + 1) =
          ((insertRows env ts (n + 1)).1, Except.ok m) := by
        rw [← h2]
      obtain ⟨hev', hm'⟩ := ih (n + 1) _ hsplit
      refine ⟨?_, ?_⟩
      · rw [← h1, hev']
        simp
      · rw [hm']
        simp only [List.length_cons]
        omega

lemma insertRows_allOk (env : Env) (hins : ∀ k ps, env.insertOk k ps = true)
    (rows : List TickData) (n : Nat) :
    insertRows env rows n =
      (rows.map (fun t => Event.insertRow (bindRow t)), .ok (n + rows.length)) := by
  induction rows generalizing n with
  | nil => simp [insertRows]
  | cons t ts ih =>
    have hlen : n + 1 + ts.length = n + (t :: ts).length := by
      simp only [List.length_cons]
      omega
    rw [insertRows, if_pos (hins n (bindRow t)), ih (n + 1), hlen]
    simp

lemma insertRows_append (env : Env) (a b : List TickData) (n : Nat) :
    insertRows env (a ++ b) n =
      (match insertRows env a n with
       | (evs, .error e) => (evs, .error e)
       | (evs, .ok m) =>
         ((evs ++ (insertRows env b m).1 : List Event), (insertRows env b m).2)) := by
  induction a generalizing n with
  | nil => simp [insertRows]
  | cons t ts ih =>
    cases hok : env.insertOk n (bindRow t) with
    | false => simp [insertRows, hok]
    | true =>
      cases h : insertRows env ts (n + 1) with
      | mk evs r =>
        cases r with
        | error e => simp [List.cons_append, insertRows, hok, ih, h]
        | ok m => simp [List.cons_append, insertRows, hok, ih, h]

/-- Processing chunks in sequence is processing their concatenation. -/
lemma insertChunked_eq_flat (env : Env) (chs : List (List TickData)) (n : Nat) :
    insertChunked env chs n = insertRows env chs.flatten n := by
  induction chs generalizing n with
  | nil => simp [insertChunked, insertRows]
  | cons c cs ih =>
    cases h : insertRows env c n with
    | mk evs r =>
      cases r with
      | error e =>
        simp [insertChunked, List.flatten_cons, insertRows_append, h]
      | ok m =>
        simp [insertChunked, List.flatten_cons, insertRows_append, h, ih]

lemma chunksGo_flatten {α : Type} (c fuel : Nat) (l : List α) :
    (chunksGo c fuel l).flatten = l := by
  induction fuel generalizing l with
  | zero => cases l <;> simp [chunksGo]
  | succ k ih =>
    cases l with
    | nil => simp [chunksGo]
    | cons x xs =>
      simp [chunksGo, ih, List.take_append_drop]

lemma chunks_flatten {α : Type} (c : Nat) (l : List α) :
    (chunks c l).flatten = l :=
  chunksGo_flatten c l.length l

/-- The first failing insert, at global index `k`, cuts the loop short. -/
lemma insertRows_firstFail (env : Env) (rows : List TickData) (n k : Nat)
    (hk : k < rows.length)
    (hpre : ∀ i : Fin rows.length, (i : Nat) < k →
      env.insertOk (n + i) (bindRow (rows.get i)) = true)
    (hf : env.insertOk (n + k) (bindRow (rows.get ⟨k, hk⟩)) = false) :
    insertRows env rows n =
      ((rows.take (k + 1)).map (fun t => Event.insertRow (bindRow t)),
        .error .insertError) := by
  induction rows generalizing n k with
  | nil => cases hk
  | cons t ts ih =>
    cases k with
    | zero =>
      have hf0 : env.insertOk n (bindRow t) = false := by simpa using hf
      simp [insertRows, hf0]
    | succ j =>
      have hok : env.insertOk n (bindRow t) = true := by
        have h0 := hpre ⟨0, Nat.succ_pos _⟩ (Nat.succ_pos j)
        simpa using h0
      have hkj : j < ts.length := Nat.lt_of_succ_lt_succ hk
      have hpre' : ∀ i : Fin ts.length, (i : Nat) < j →
          env.insertOk (n + 1 + i) (bindRow (ts.get i)) = true := by
        intro i hi
        have heq : n + 1 + (i : Nat) = n + ((i : Nat) + 1) := by omega
        rw [heq]
        have hstep := hpre ⟨(i : Nat) + 1, Nat.succ_lt_succ i.isLt⟩
          (Nat.succ_lt_succ hi)
        simpa [List.get] using hstep
      have hf' : env.insertOk (n + 1 + j) (bindRow (ts.get ⟨j, hkj⟩)) = false := by
        have heq : n + 1 + j = n + (j + 1) := by omega
        rw [heq]
        simpa [List.get] using hf
      have htail := ih (n + 1) j hkj hpre' hf'
      simp [insertRows, hok, htail, List.take_succ_cons]

lemma toI32_of_lt (n : Nat) (h : n < 2 ^ 31) : toI32 n = n := by
  unfold toI32
  have hmod : n % 2 ^ 32 = n := by omega
  rw [hmod, if_pos h]

lemma toI32_lt_two31 (n : Nat) : toI32 n < 2 ^ 31 := by
  unfold toI32
  split <;> omega

/-- The success path of the run: everything succeeds, so the call returns the
wrapped row count and the trace is connect, prepare, begin, one insert per
row in order, commit. -/
lemma run_allOk (c : Nat) (env : Env) (dbp : String) (l : List PyObject)
    (f m : String) (recs : List TickData)
    (hconv : convertAll f m l = .ok recs)
    (hc : env.connectOk = true) (hp : env.prepareOk = true)
    (hb : env.beginOk = true) (hcm : env.commitOk = true)
    (hins : ∀ k ps, env.insertOk k ps = true) :
    insertTicksBulkWith c env dbp l f m =
      (.ok (toI32 recs.length),
       [.connect, .prepareStmt, .beginTx] ++
         recs.map (fun t => Event.insertRow (bindRow t)) ++ [.commit]) := by
  have hflat : insertChunked env (chunks c recs) 0 =
      (recs.map (fun t => Event.insertRow (bindRow t)), .ok recs.length) := by
    rw [insertChunked_eq_flat, chunks_flatten, insertRows_allOk env hins]
    simp
  simp [insertTicksBulkWith, hconv, hc, hp, hb, hcm, hflat]

/-- The chunk size does not influence the run at all. -/
lemma insertTicksBulkWith_eq_flatRun (c : Nat) (env : Env) (dbp : String)
    (l : List PyObject) (f m : String) :
    insertTicksBulkWith c env dbp l f m = flatRun env dbp l f m := by
  unfold insertTicksBulkWith flatRun
  cases hcv : convertAll f m l with
  | error e => rfl
  | ok recs =>
    simp only [insertChunked_eq_flat, chunks_flatten]

/-- Inversion of the success path: a call that returned a count converted
every record and produced the canonical success trace. -/
lemma run_ok_inv (c : Nat) (env : Env) (dbp : String) (l : List PyObject)
    (f m : String) (v : Int)
    (h : (insertTicksBulkWith c env dbp l f m).1 = .ok v) :
    ∃ recs, convertAll f m l = .ok recs ∧
      insertTicksBulkWith c env dbp l f m =
        (.ok (toI32 recs.length),
         [.connect, .prepareStmt, .beginTx] ++
           recs.map (fun t => Event.insertRow (bindRow t)) ++ [.commit]) := by
  unfold insertTicksBulkWith at h ⊢
  cases hcv : convertAll f m l with
  | error e =>
    rw [hcv] at h
    simp at h
  | ok recs =>
    rw [hcv] at h
    refine ⟨recs, rfl, ?_⟩
    simp only [insertChunked_eq_flat, chunks_flatten] at h ⊢
    cases hc : env.connectOk with
    | false => rw [hc] at h; simp at h
    | true =>
      rw [hc] at h
      cases hp : env.prepareOk with
      | false => rw [hp] at h; simp at h
      | true =>
        rw [hp] at h
        cases hb : env.beginOk with
        | false => rw [hb] at h; simp at h
        | true =>
          rw [hb] at h
          cases hr : insertRows env recs 0 with
          | mk evs r2 =>
            rw [hr] at h
            cases r2 with
            | error e => simp at h
            | ok n =>
              obtain ⟨hev, hn⟩ := insertRows_ok_inv env recs 0 evs n hr
              cases hcm : env.commitOk with
              | false => rw [hcm] at h; simp at h
              | true => simp [hev, hn]

lemma insertedParams_map (rows : List TickData) :
    insertedParams (rows.map fun t => Event.insertRow (bindRow t)) =
      rows.map bindRow := by
  induction rows with
  | nil => rfl
  | cons t ts ih =>
    unfold insertedParams at ih ⊢
    rw [List.map_cons, List.filterMap_cons]
    simp only []
    rw [ih, List.map_cons]

lemma insertedParams_success_trace (rows : List TickData) :
    insertedParams ([.connect, .prepareStmt, .beginTx] ++
        rows.map (fun t => Event.insertRow (bindRow t)) ++ [.commit]) =
      rows.map bindRow := by
  have e1 : insertedParams [Event.connect, Event.prepareStmt, Event.beginTx] = [] :=
    rfl
  have e2 : insertedParams [Event.commit] = [] := rfl
  rw [insertedParams, List.filterMap_append, List.filterMap_append]
  rw [← insertedParams, ← insertedParams, ← insertedParams, insertedParams_map,
    e1, e2]
  simp

lemma insertedParams_fail_trace (rows : List TickData) :
    insertedParams ([.connect, .prepareStmt, .beginTx] ++
        rows.map (fun t => Event.insertRow (bindRow t))) =
      rows.map bindRow := by
  have e1 : insertedParams [Event.connect, Event.prepareStmt, Event.beginTx] = [] :=
    rfl
  rw [insertedParams, List.filterMap_append]
  rw [← insertedParams, ← insertedParams, insertedParams_map, e1]
  simp

/-! ## Claims -/

/-- C1 (amended): for every input sequence of `N` records that are all
mappings, in an environment where every storage operation succeeds,
`insert_ticks_bulk` durably commits all `N` rows, and returns a
committed-row count equal to `N` provided `N < 2^31` (the returned `i32`
wraps for larger `N`, see C10). -/
theorem C1_bulk_load_count (env : Env) (dbp : String) (l : List PyObject)
    (f m : String)
    (hd : PyObject.nonDict ∉ l)
    (hc : env.connectOk = true) (hp : env.prepareOk = true)
    (hb : env.beginOk = true) (hcm : env.commitOk = true)
    (hins : ∀ k ps, env.insertOk k ps = true)
    (hN : l.length < 2 ^ 31) :
    (insert_ticks_bulk env dbp l f m).1 = .ok (l.length : Int) ∧
      (committedParams (insert_ticks_bulk env dbp l f m)).length = l.length := by
  obtain ⟨recs, hconv, hlen⟩ := convertAll_ok_of_no_nonDict f m l hd
  have hco : insert_ticks_bulk env dbp l f m =
      (.ok (toI32 recs.length),
       [.connect, .prepareStmt, .beginTx] ++
         recs.map (fun t => Event.insertRow (bindRow t)) ++ [.commit]) :=
    run_allOk 10000 env dbp l f m recs hconv hc hp hb hcm hins
  rw [hco]
  constructor
  · show Except.ok (toI32 recs.length) = Except.ok (l.length : Int)
    rw [hlen, toI32_of_lt _ hN]
  · show (committedParams (.ok (toI32 recs.length), _)).length = l.length
    unfold committedParams
    simp only []
    rw [insertedParams_success_trace, List.length_map, hlen]

/-- C1 witness: one well-formed record in the all-success environment
commits one row and returns 1. -/
theorem C1_bulk_load_count_witness :
    (insert_ticks_bulk envOK "db" [PyObject.dict []] "f" "m").1 = .ok (1 : Int) ∧
      (committedParams (insert_ticks_bulk envOK "db" [PyObject.dict []] "f" "m")).length = 1 :=
  C1_bulk_load_count envOK "db" [PyObject.dict []] "f" "m" (by simp)
    rfl rfl rfl rfl (fun _ _ => rfl) (by norm_num)

/-- C1 counterexample: with `N = 2^31` well-formed records and every storage
operation succeeding, the returned count is not `N` (the `i32` result has
wrapped to `-2^31`), refuting the claim for arbitrary `N`. -/
theorem C1_count_counterexample :
    (insert_ticks_bulk envOK "ticks.db"
        (List.replicate (2 ^ 31) (PyObject.dict [])) "m1.dem" "de_dust2").1 ≠
      .ok (((List.replicate (2 ^ 31) (PyObject.dict [])).length : Nat) : Int) := by
  have hconv := convertAll_replicate_dict "m1.dem" "de_dust2" [] (2 ^ 31)
  have hco := run_allOk 10000 envOK "ticks.db"
    (List.replicate (2 ^ 31) (PyObject.dict [])) "m1.dem" "de_dust2"
    (List.replicate (2 ^ 31) (from_py_dict [] "m1.dem" "de_dust2")) hconv
    rfl rfl rfl rfl (fun _ _ => rfl)
  unfold insert_ticks_bulk
  rw [hco]
  simp only [List.length_replicate]
  intro hcontra
  have h2 : toI32 (2 ^ 31) = ((2 ^ 31 : Nat) : Int) := Except.ok.inj hcontra
  have hlt := toI32_lt_two31 (2 ^ 31)
  rw [h2] at hlt
  omega

/-- C2: if the insert of row `k` fails (all earlier rows accepted), the call
stops at that row: it surfaces the insertion error, never issues a commit,
attempts exactly rows `0..k` once each in order, and commits nothing. -/
theorem C2_insert_failure_aborts (env : Env) (dbp : String) (l : List PyObject)
    (f m : String) (recs : List TickData) (k : Nat)
    (hconv : convertAll f m l = .ok recs)
    (hc : env.connectOk = true) (hp : env.prepareOk = true)
    (hb : env.beginOk = true)
    (hk : k < recs.length)
    (hpre : ∀ i : Fin recs.length, (i : Nat) < k →
      env.insertOk i (bindRow (recs.get i)) = true)
    (hf : env.insertOk k (bindRow (recs.get ⟨k, hk⟩)) = false) :
    (insert_ticks_bulk env dbp l f m).1 = .error .insertError ∧
      Event.commit ∉ (insert_ticks_bulk env dbp l f m).2 ∧
      insertedParams (insert_ticks_bulk env dbp l f m).2 =
        (recs.take (k + 1)).map bindRow ∧
      committedParams (insert_ticks_bulk env dbp l f m) = [] := by
  have hrows := insertRows_firstFail env recs 0 k hk
    (fun i hi => by simpa using hpre i hi)
    (by simpa using hf)
  have hflat : insertChunked env (chunks 10000 recs) 0 =
      ((recs.take (k + 1)).map (fun t => Event.insertRow (bindRow t)),
        .error .insertError) := by
    rw [insertChunked_eq_flat, chunks_flatten, hrows]
  have hco : insert_ticks_bulk env dbp l f m =
      (.error .insertError,
       [.connect, .prepareStmt, .beginTx] ++
         (recs.take (k + 1)).map (fun t => Event.insertRow (bindRow t))) := by
    simp [insert_ticks_bulk, insertTicksBulkWith, hconv, hc, hp, hb, hflat]
  rw [hco]
  refine ⟨rfl, ?_, ?_, rfl⟩
  · intro hmem
    rcases List.mem_append.mp hmem with hmem | hmem
    · simp at hmem
    · rcases List.mem_map.mp hmem with ⟨t, _, ht⟩
      exact Event.noConfusion ht
  · exact insertedParams_fail_trace _

/-- C2 witness: a single record whose insert is rejected yields the
insertion error, no commit, one attempted row, nothing committed. -/
theorem C2_insert_failure_aborts_witness :
    (insert_ticks_bulk envInsFail "db" [PyObject.dict []] "f" "m").1 =
        .error .insertError ∧
      Event.commit ∉ (insert_ticks_bulk envInsFail "db" [PyObject.dict []] "f" "m").2 ∧
      insertedParams (insert_ticks_bulk envInsFail "db" [PyObject.dict []] "f" "m").2 =
        (([from_py_dict [] "f" "m"]).take 1).map bindRow ∧
      committedParams (insert_ticks_bulk envInsFail "db" [PyObject.dict []] "f" "m") = [] :=
  C2_insert_failure_aborts envInsFail "db" [PyObject.dict []] "f" "m"
    [from_py_dict [] "f" "m"] 0 rfl rfl rfl rfl (by simp)
    (fun i hi => absurd hi (Nat.not_lt_zero _)) rfl

/-- C3: normalization always produces a fully populated row; every field
whose source key is absent, or present with a non-coercible value, takes its
documented default (0 for integers, 0.0 for floats, empty text for strings,
true for `is_alive`, 100 for `hp`), and the two batch constants are injected
verbatim; no malformed field aborts the conversion (`from_py_dict` is total
on mappings). -/
theorem C3_field_defaults (d : PyDict) (f m : String) :
    (absentOrBad d "tick" exI32 → (from_py_dict d f m).tick = 0) ∧
    (absentOrBad d "roundNum" exI32 → (from_py_dict d f m).round_num = 0) ∧
    (absentOrBad d "seconds" exF64 → (from_py_dict d f m).seconds = 0) ∧
    (absentOrBad d "clockTime" exStr → (from_py_dict d f m).clock_time = "") ∧
    (absentOrBad d "tScore" exI32 → (from_py_dict d f m).t_score = 0) ∧
    (absentOrBad d "ctScore" exI32 → (from_py_dict d f m).ct_score = 0) ∧
    (absentOrBad d "steamID" exI64 → (from_py_dict d f m).steam_id = 0) ∧
    (absentOrBad d "name" exStr → (from_py_dict d f m).name = "") ∧
    (absentOrBad d "team" exStr → (from_py_dict d f m).team = "") ∧
    (absentOrBad d "side" exStr → (from_py_dict d f m).side = "") ∧
    (absentOrBad d "isAlive" exBool → (from_py_dict d f m).is_alive = true) ∧
    (absentOrBad d "hp" exI32 → (from_py_dict d f m).hp = 100) ∧
    (absentOrBad d "armor" exI32 → (from_py_dict d f m).armor = 0) ∧
    (absentOrBad d "x" exF64 → (from_py_dict d f m).x = 0) ∧
    (absentOrBad d "y" exF64 → (from_py_dict d f m).y = 0) ∧
    (absentOrBad d "z" exF64 → (from_py_dict d f m).z = 0) ∧
    (absentOrBad d "viewX" exF64 → (from_py_dict d f m).view_x = 0) ∧
    (absentOrBad d "viewY" exF64 → (from_py_dict d f m).view_y = 0) ∧
    (absentOrBad d "activeWeapon" exStr → (from_py_dict d f m).active_weapon = "") ∧
    (from_py_dict d f m).demo_filename = f ∧
    (from_py_dict d f m).map_name = m := by
  refine ⟨?_, ?_, ?_, ?_, ?_, ?_, ?_, ?_, ?_, ?_, ?_, ?_, ?_, ?_, ?_, ?_, ?_,
    ?_, ?_, rfl, rfl⟩ <;>
    exact fun h => getField_default _ _ _ _ h

/-- C3 witness: the empty record normalizes to the all-defaults row. -/
theorem C3_field_defaults_witness :
    (from_py_dict [] "m1.dem" "de_dust2").tick = 0 ∧
    (from_py_dict [] "m1.dem" "de_dust2").round_num = 0 ∧
    (from_py_dict [] "m1.dem" "de_dust2").seconds = 0 ∧
    (from_py_dict [] "m1.dem" "de_dust2").clock_time = "" ∧
    (from_py_dict [] "m1.dem" "de_dust2").t_score = 0 ∧
    (from_py_dict [] "m1.dem" "de_dust2").ct_score = 0 ∧
    (from_py_dict [] "m1.dem" "de_dust2").steam_id = 0 ∧
    (from_py_dict [] "m1.dem" "de_dust2").name = "" ∧
    (from_py_dict [] "m1.dem" "de_dust2").team = "" ∧
    (from_py_dict [] "m1.dem" "de_dust2").side = "" ∧
    (from_py_dict [] "m1.dem" "de_dust2").is_alive = true ∧
    (from_py_dict [] "m1.dem" "de_dust2").hp = 100 ∧
    (from_py_dict [] "m1.dem" "de_dust2").armor = 0 ∧
    (from_py_dict [] "m1.dem" "de_dust2").x = 0 ∧
    (from_py_dict [] "m1.dem" "de_dust2").y = 0 ∧
    (from_py_dict [] "m1.dem" "de_dust2").z = 0 ∧
    (from_py_dict [] "m1.dem" "de_dust2").view_x = 0 ∧
    (from_py_dict [] "m1.dem" "de_dust2").view_y = 0 ∧
    (from_py_dict [] "m1.dem" "de_dust2").active_weapon = "" ∧
    (from_py_dict [] "m1.dem" "de_dust2").demo_filename = "m1.dem" ∧
    (from_py_dict [] "m1.dem" "de_dust2").map_name = "de_dust2" := by
  obtain ⟨h1, h2, h3, h4, h5, h6, h7, h8, h9, h10, h11, h12, h13, h14, h15,
    h16, h17, h18, h19, h20, h21⟩ := C3_field_defaults [] "m1.dem" "de_dust2"
  exact ⟨h1 (Or.inl rfl), h2 (Or.inl rfl), h3 (Or.inl rfl), h4 (Or.inl rfl),
    h5 (Or.inl rfl), h6 (Or.inl rfl), h7 (Or.inl rfl), h8 (Or.inl rfl),
    h9 (Or.inl rfl), h10 (Or.inl rfl), h11 (Or.inl rfl), h12 (Or.inl rfl),
    h13 (Or.inl rfl), h14 (Or.inl rfl), h15 (Or.inl rfl), h16 (Or.inl rfl),
    h17 (Or.inl rfl), h18 (Or.inl rfl), h19 (Or.inl rfl), h20, h21⟩

/-- C4: a sequence containing a record that is not a mapping fails with the
structural (downcast) error before any storage work: the trace is empty (no
connect, no prepare, no transaction) and nothing is committed. -/
theorem C4_structural_error_aborts (env : Env) (dbp : String)
    (l : List PyObject) (f m : String)
    (h : PyObject.nonDict ∈ l) :
    (insert_ticks_bulk env dbp l f m).1 = .error .downcastError ∧
      (insert_ticks_bulk env dbp l f m).2 = [] ∧
      committedParams (insert_ticks_bulk env dbp l f m) = [] := by
  have hconv := convertAll_err_of_nonDict f m l h
  have hco : insert_ticks_bulk env dbp l f m = (.error .downcastError, []) := by
    simp [insert_ticks_bulk, insertTicksBulkWith, hconv]
  rw [hco]
  exact ⟨rfl, rfl, rfl⟩

/-- C4 witness: a single non-mapping record yields the structural error with
an empty storage trace. -/
theorem C4_structural_error_aborts_witness :
    (insert_ticks_bulk envOK "db" [PyObject.nonDict] "f" "m").1 =
        .error .downcastError ∧
      (insert_ticks_bulk envOK "db" [PyObject.nonDict] "f" "m").2 = [] ∧
      committedParams (insert_ticks_bulk envOK "db" [PyObject.nonDict] "f" "m") = [] :=
  C4_structural_error_aborts envOK "db" [PyObject.nonDict] "f" "m" (by simp)

/-- C5: chunking transparency; for any two chunk sizes at least 1, the whole
outcome (returned value, error, and the full storage trace, hence the
committed data) is identical, and the source's `BATCH_SIZE = 10000` run is
one of them. -/
theorem C5_chunking_transparent (c c' : Nat) (env : Env) (dbp : String)
    (l : List PyObject) (f m : String) (hc : 1 ≤ c) (hc' : 1 ≤ c') :
    insertTicksBulkWith c env dbp l f m = insertTicksBulkWith c' env dbp l f m ∧
      insert_ticks_bulk env dbp l f m = insertTicksBulkWith c env dbp l f m := by
  have h1 := insertTicksBulkWith_eq_flatRun c env dbp l f m
  have h2 := insertTicksBulkWith_eq_flatRun c' env dbp l f m
  have h3 := insertTicksBulkWith_eq_flatRun 10000 env dbp l f m
  exact ⟨h1.trans h2.symm, h3.trans h1.symm⟩

/-- C5 witness: chunk sizes 1 and 3 agree with the default on a two-record
input. -/
theorem C5_chunking_transparent_witness :
    insertTicksBulkWith 1 envOK "db"
        [PyObject.dict [("tick", PyValue.int 7)], PyObject.dict []] "f" "m" =
      insertTicksBulkWith 3 envOK "db"
        [PyObject.dict [("tick", PyValue.int 7)], PyObject.dict []] "f" "m" ∧
      insert_ticks_bulk envOK "db"
          [PyObject.dict [("tick", PyValue.int 7)], PyObject.dict []] "f" "m" =
        insertTicksBulkWith 1 envOK "db"
          [PyObject.dict [("tick", PyValue.int 7)], PyObject.dict []] "f" "m" :=
  C5_chunking_transparent 1 3 envOK "db"
    [PyObject.dict [("tick", PyValue.int 7)], PyObject.dict []] "f" "m"
    (by norm_num) (by norm_num)

/-- C6: normalization is pure and deterministic; converting the same record
twice in one call yields two identical rows, and the result depends only on
the record's bindings for the nineteen source keys and the two batch
constants (any record agreeing on those lookups normalizes identically). -/
theorem C6_normalization_pure :
    (∀ d f m, convertAll f m [.dict d, .dict d] =
        .ok [from_py_dict d f m, from_py_dict d f m]) ∧
    (∀ d₁ d₂ f m, (∀ k ∈ sourceKeys, lookupKey k d₁ = lookupKey k d₂) →
      from_py_dict d₁ f m = from_py_dict d₂ f m) := by
  constructor
  · intro d f m
    rfl
  · intro d₁ d₂ f m h
    exact from_py_dict_ext d₁ d₂ f m h

/-- C6 witness: a duplicated record converts to two equal rows, and an
irrelevant extra binding does not change the result. -/
theorem C6_normalization_pure_witness :
    convertAll "m1.dem" "de_dust2"
        [.dict [("tick", PyValue.int 1)], .dict [("tick", PyValue.int 1)]] =
      .ok [from_py_dict [("tick", PyValue.int 1)] "m1.dem" "de_dust2",
           from_py_dict [("tick", PyValue.int 1)] "m1.dem" "de_dust2"] ∧
      from_py_dict [("tick", PyValue.int 1)] "m1.dem" "de_dust2" =
        from_py_dict [("tick", PyValue.int 1), ("junk", PyValue.other)]
          "m1.dem" "de_dust2" :=
  ⟨C6_normalization_pure.1 [("tick", PyValue.int 1)] "m1.dem" "de_dust2",
   C6_normalization_pure.2 [("tick", PyValue.int 1)]
     [("tick", PyValue.int 1), ("junk", PyValue.other)] "m1.dem" "de_dust2"
     (by decide)⟩

/-- C7: the values bound to the prepared statement are exactly the row's
fields in the declared destination column order, one parameter per column. -/
theorem C7_binding_order (t : TickData) :
    bindRow t = insertColumns.filterMap (fun c => columnValue t c) ∧
      (bindRow t).length = insertColumns.length :=
  ⟨rfl, rfl⟩

/-- C8: every successful call converted all records and produced the
canonical trace: one transaction begin before the first insert, one insert
per row in original order, and exactly one commit, after the last row; the
returned value is the (wrapped) row count. -/
theorem C8_single_txn_shape (env : Env) (dbp : String) (l : List PyObject)
    (f m : String) (v : Int)
    (h : (insert_ticks_bulk env dbp l f m).1 = .ok v) :
    ∃ recs, convertAll f m l = .ok recs ∧
      (insert_ticks_bulk env dbp l f m).2 =
        [.connect, .prepareStmt, .beginTx] ++
          recs.map (fun t => Event.insertRow (bindRow t)) ++ [.commit] ∧
      v = toI32 recs.length ∧
      List.count Event.beginTx (insert_ticks_bulk env dbp l f m).2 = 1 ∧
      List.count Event.commit (insert_ticks_bulk env dbp l f m).2 = 1 := by
  obtain ⟨recs, hconv, heq⟩ := run_ok_inv 10000 env dbp l f m v h
  have h' : (insertTicksBulkWith 10000 env dbp l f m).1 = .ok v := h
  rw [heq] at h'
  have hv : v = toI32 recs.length := (Except.ok.inj h').symm
  have htr : (insert_ticks_bulk env dbp l f m).2 =
      [.connect, .prepareStmt, .beginTx] ++
        recs.map (fun t => Event.insertRow (bindRow t)) ++ [.commit] := by
    show (insertTicksBulkWith 10000 env dbp l f m).2 = _
    rw [heq]
  have hb0 : List.count Event.beginTx
      (recs.map (fun t => Event.insertRow (bindRow t))) = 0 :=
    List.count_eq_zero.mpr (by simp)
  have hc0 : List.count Event.commit
      (recs.map (fun t => Event.insertRow (bindRow t))) = 0 :=
    List.count_eq_zero.mpr (by simp)
  refine ⟨recs, hconv, htr, hv, ?_, ?_⟩
  · rw [htr]
    simp [List.count_append, hb0, List.count_cons]
  · rw [htr]
    simp [List.count_append, hc0, List.count_cons]

/-- C8 witness: the one-record success call exhibits the canonical
single-transaction trace. -/
theorem C8_single_txn_shape_witness :
    ∃ recs, convertAll "f" "m" [PyObject.dict []] = .ok recs ∧
      (insert_ticks_bulk envOK "db" [PyObject.dict []] "f" "m").2 =
        [.connect, .prepareStmt, .beginTx] ++
          recs.map (fun t => Event.insertRow (bindRow t)) ++ [.commit] ∧
      (1 : Int) = toI32 recs.length ∧
      List.count Event.beginTx
        (insert_ticks_bulk envOK "db" [PyObject.dict []] "f" "m").2 = 1 ∧
      List.count Event.commit
        (insert_ticks_bulk envOK "db" [PyObject.dict []] "f" "m").2 = 1 :=
  C8_single_txn_shape envOK "db" [PyObject.dict []] "f" "m" 1 rfl

/-- C9: lookups use the fixed camelCase source keys (the record is read only
through `sourceKeys`), so a value stored under the snake_case column name,
e.g. `round_num` instead of `roundNum`, is silently replaced by the default,
while the camelCase key is honoured. -/
theorem C9_camelCase_source_keys :
    (∀ d f m, from_py_dict d f m =
        from_py_dict (d.filter fun p => decide (p.1 ∈ sourceKeys)) f m) ∧
    (∀ f m, (from_py_dict [("round_num", PyValue.int 5)] f m).round_num = 0) ∧
    (∀ f m, (from_py_dict [("roundNum", PyValue.int 5)] f m).round_num = 5) := by
  refine ⟨?_, ?_, ?_⟩
  · intro d f m
    exact from_py_dict_ext _ _ _ _ (fun k hk => (lookupKey_filter d k hk).symm)
  · intro f m
    rfl
  · intro f m
    rfl

/-- C10: the returned count is the row count reduced modulo `2^32` and read
as a signed 32-bit integer; it differs from `N` whenever `N ≥ 2^31` and
equals `N` exactly when `N < 2^31`. -/
theorem C10_i32_wraparound (env : Env) (dbp : String) (l : List PyObject)
    (f m : String)
    (hd : PyObject.nonDict ∉ l)
    (hc : env.connectOk = true) (hp : env.prepareOk = true)
    (hb : env.beginOk = true) (hcm : env.commitOk = true)
    (hins : ∀ k ps, env.insertOk k ps = true) :
    (insert_ticks_bulk env dbp l f m).1 = .ok (toI32 l.length) ∧
      (2 ^ 31 ≤ l.length → toI32 l.length ≠ (l.length : Int)) ∧
      (l.length < 2 ^ 31 → toI32 l.length = (l.length : Int)) := by
  obtain ⟨recs, hconv, hlen⟩ := convertAll_ok_of_no_nonDict f m l hd
  have hco := run_allOk 10000 env dbp l f m recs hconv hc hp hb hcm hins
  refine ⟨?_, ?_, ?_⟩
  · show (insertTicksBulkWith 10000 env dbp l f m).1 = .ok (toI32 l.length)
    rw [hco, hlen]
  · intro hN
    have hlt := toI32_lt_two31 l.length
    omega
  · intro hN
    exact toI32_of_lt l.length hN

/-- C10 witness: at `N = 2^31`, the returned count is the wrapped value and
differs from `N`. -/
theorem C10_i32_wraparound_witness :
    (insert_ticks_bulk envOK "db"
        (List.replicate (2 ^ 31) (PyObject.dict [])) "f" "m").1 =
      .ok (toI32 (List.replicate (2 ^ 31) (PyObject.dict [])).length) ∧
      (2 ^ 31 ≤ (List.replicate (2 ^ 31) (PyObject.dict [])).length →
        toI32 (List.replicate (2 ^ 31) (PyObject.dict [])).length ≠
          ((List.replicate (2 ^ 31) (PyObject.dict [])).length : Int)) ∧
      ((List.replicate (2 ^ 31) (PyObject.dict [])).length < 2 ^ 31 →
        toI32 (List.replicate (2 ^ 31) (PyObject.dict [])).length =
          ((List.replicate (2 ^ 31) (PyObject.dict [])).length : Int)) :=
  C10_i32_wraparound envOK "db" (List.replicate (2 ^ 31) (PyObject.dict []))
    "f" "m"
    (fun hmem => absurd (List.eq_of_mem_replicate hmem) (by simp))
    rfl rfl rfl rfl (fun _ _ => rfl)

end StratagemForge
